import Mathlib

/-!
Shallow embedding of the cryptographic session engine of the `merabriar`
repository (`rust_core/src/crypto/`): key management state, X3DH-style
session initialisation, the symmetric HKDF ratchet, and the AES-256-GCM
message transform.  Byte strings are `List Nat` with every element `< 256`;
machine integers are `Nat` with explicit reduction modulo `2 ^ 32` where the
Rust code uses `u32`.
-/

set_option maxRecDepth 100000
set_option maxHeartbeats 4000000

namespace MeraBriar

/-- Byte strings: lists of naturals, each `< 256` by construction. -/
abbrev Bytes := List Nat

/-- Truncation to 32 bits (`u32` arithmetic). -/
def w32 (x : Nat) : Nat := x % 4294967296

/-- 32-bit right rotation. -/
def rotr32 (n x : Nat) : Nat := w32 ((x >>> n) ||| (x <<< (32 - n)))

/-- Big-endian bytes of a `u32` (Rust `u32::to_be_bytes`). -/
def u32beBytes (x : Nat) : Bytes :=
  [x / 16777216 % 256, x / 65536 % 256, x / 256 % 256, x % 256]

/-- Big-endian bytes of a `u64`. -/
def u64beBytes (x : Nat) : Bytes :=
  [x / 72057594037927936 % 256, x / 281474976710656 % 256,
   x / 1099511627776 % 256, x / 4294967296 % 256,
   x / 16777216 % 256, x / 65536 % 256, x / 256 % 256, x % 256]

/-- Group a big-endian byte string into 32-bit words. -/
def bytesToWordsBE : Bytes → List Nat
  | b0 :: b1 :: b2 :: b3 :: rest =>
      (((b0 * 256 + b1) * 256 + b2) * 256 + b3) :: bytesToWordsBE rest
  | _ => []

/-! ## SHA-256 (FIPS 180-4), the hash underlying the `sha2`/`hkdf` crates -/

/-- The 64 SHA-256 round constants (FIPS 180-4 §4.2.2), packed into one
natural number with constant `i` in bits `32 i` to `32 i + 31`. -/
def sha256Kpacked : Nat :=
  0xc67178f2bef9a3f7a4506ceb90befffa8cc7020884c8781478a5636f748f82ee682e6ff35b9cca4f4ed8aa4a391c0cb334b0bcb52748774c1e376c0819a4c116106aa070f40e3585d6990624d192e819c76c51a3c24b8b70a81a664ba2bfe8a192722c8581c2c92e766a0abb650a735453380d134d2c6dfc2e1b213827b70a851429296706ca6351d5a79147c6e00bf3bf597fc7b00327c8a831c66d983e515276f988da5cb0a9dc4a7484aa2de92c6f240ca1cc0fc19dc6efbe4786e49b69c1c19bf1749bdc06a780deb1fe72be5d74550c7dc3243185be12835b01d807aa98ab1c5ed5923f82a459f111f13956c25be9b5dba5b5c0fbcf71374491428a2f98

/-- SHA-256 round constants, in order. -/
def sha256K : List Nat :=
  (List.range 64).map (fun i => (sha256Kpacked >>> (32 * i)) % 4294967296)

/-- The 8 words of the SHA-256 initial hash value (FIPS 180-4 §5.3.3),
packed with word `i` in bits `32 i` to `32 i + 31`. -/
def sha256H0packed : Nat :=
  0x5be0cd191f83d9ab9b05688c510e527fa54ff53a3c6ef372bb67ae856a09e667

/-- SHA-256 initial hash value, in order. -/
def sha256H0 : List Nat :=
  (List.range 8).map (fun i => (sha256H0packed >>> (32 * i)) % 4294967296)

/-- Small sigma 0 of the message schedule. -/
def ssig0 (x : Nat) : Nat := rotr32 7 x ^^^ rotr32 18 x ^^^ (x >>> 3)

/-- Small sigma 1 of the message schedule. -/
def ssig1 (x : Nat) : Nat := rotr32 17 x ^^^ rotr32 19 x ^^^ (x >>> 10)

/-- One step of the message-schedule extension; the argument holds the words
produced so far, most recent first. -/
def schedStep (wrev : List Nat) : Nat :=
  w32 (wrev.getD 15 0 + ssig0 (wrev.getD 14 0) + wrev.getD 6 0 + ssig1 (wrev.getD 1 0))

/-- Extend the reversed schedule by `n` words and return it in order. -/
def schedule : Nat → List Nat → List Nat
  | 0, wrev => wrev.reverse
  | n + 1, wrev => schedule n (schedStep wrev :: wrev)

/-- Working state of the compression function. -/
structure Hash8 where
  a : Nat
  b : Nat
  c : Nat
  d : Nat
  e : Nat
  f : Nat
  g : Nat
  h : Nat

/-- One round of the SHA-256 compression function. -/
def sha256Round (s : Hash8) (kw : Nat × Nat) : Hash8 :=
  let bsig1 := rotr32 6 s.e ^^^ rotr32 11 s.e ^^^ rotr32 25 s.e
  let ch := (s.e &&& s.f) ^^^ ((s.e ^^^ 4294967295) &&& s.g)
  let t1 := w32 (s.h + bsig1 + ch + kw.1 + kw.2)
  let bsig0 := rotr32 2 s.a ^^^ rotr32 13 s.a ^^^ rotr32 22 s.a
  let maj := (s.a &&& s.b) ^^^ (s.a &&& s.c) ^^^ (s.b &&& s.c)
  let t2 := w32 (bsig0 + maj)
  ⟨w32 (t1 + t2), s.a, s.b, s.c, w32 (s.d + t1), s.e, s.f, s.g⟩

/-- Compress one 64-byte block into the running hash (8 words). -/
def sha256Compress (hs : List Nat) (block : Bytes) : List Nat :=
  let w16 := bytesToWordsBE block
  let w := schedule 48 w16.reverse
  let s0 : Hash8 := ⟨hs.getD 0 0, hs.getD 1 0, hs.getD 2 0, hs.getD 3 0,
                     hs.getD 4 0, hs.getD 5 0, hs.getD 6 0, hs.getD 7 0⟩
  let s := (List.zip sha256K w).foldl sha256Round s0
  [w32 (hs.getD 0 0 + s.a), w32 (hs.getD 1 0 + s.b), w32 (hs.getD 2 0 + s.c),
   w32 (hs.getD 3 0 + s.d), w32 (hs.getD 4 0 + s.e), w32 (hs.getD 5 0 + s.f),
   w32 (hs.getD 6 0 + s.g), w32 (hs.getD 7 0 + s.h)]

/-- Merkle–Damgård padding: `0x80`, zeros, 8-byte big-endian bit length. -/
def sha256Pad (msg : Bytes) : Bytes :=
  msg ++ 0x80 :: List.replicate ((64 - (msg.length + 9) % 64) % 64) 0
      ++ u64beBytes (8 * msg.length)

/-- Split a byte string whose length is a multiple of 64 into 64-byte blocks. -/
def chunk64 (l : Bytes) : List Bytes :=
  (List.range (l.length / 64)).map (fun i => ((l.drop (64 * i)).take 64))

/-- SHA-256 of a byte string. -/
def sha256 (msg : Bytes) : Bytes :=
  ((chunk64 (sha256Pad msg)).foldl sha256Compress sha256H0).flatMap u32beBytes

/-- FIPS 180-4 test vector: the hash of the empty message. -/
theorem sha256_empty_vector :
    sha256 [] =
      [0xe3, 0xb0, 0xc4, 0x42, 0x98, 0xfc, 0x1c, 0x14, 0x9a, 0xfb, 0xf4, 0xc8,
       0x99, 0x6f, 0xb9, 0x24, 0x27, 0xae, 0x41, 0xe4, 0x64, 0x9b, 0x93, 0x4c,
       0xa4, 0x95, 0x99, 0x1b, 0x78, 0x52, 0xb8, 0x55] := by decide

/-! ## HMAC-SHA256 and HKDF (RFC 2104 / RFC 5869), as used by the `hkdf` crate -/

/-- HMAC-SHA256. -/
def hmacSha256 (key msg : Bytes) : Bytes :=
  let k0 := if 64 < key.length then sha256 key else key
  let kpad := k0 ++ List.replicate (64 - k0.length) 0
  sha256 ((kpad.map (fun b => b ^^^ 0x5c)) ++ sha256 ((kpad.map (fun b => b ^^^ 0x36)) ++ msg))

/-- HKDF-Extract with SHA-256.  `Hkdf::<Sha256>::new(salt, ikm)`: an absent
salt (`None`) stands for 32 zero bytes, which the caller passes as `[]` here. -/
def hkdfExtract (salt ikm : Bytes) : Bytes :=
  hmacSha256 (if salt.isEmpty then List.replicate 32 0 else salt) ikm

/-- HKDF-Expand with SHA-256 to exactly 32 bytes (a single block
`T(1) = HMAC(prk, info || 0x01)`), matching every `expand` call in the
repository, all of which request 32-byte outputs. -/
def hkdfExpand32 (prk info : Bytes) : Bytes :=
  hmacSha256 prk (info ++ [1])

/-- RFC 4231 test case 2 for HMAC-SHA256 (key "Jefe",
data "what do ya want for nothing?"). -/
theorem hmacSha256_rfc4231_tc2 :
    hmacSha256 [0x4a, 0x65, 0x66, 0x65]
      [0x77, 0x68, 0x61, 0x74, 0x20, 0x64, 0x6f, 0x20, 0x79, 0x61, 0x20, 0x77,
       0x61, 0x6e, 0x74, 0x20, 0x66, 0x6f, 0x72, 0x20, 0x6e, 0x6f, 0x74, 0x68,
       0x69, 0x6e, 0x67, 0x3f] =
      [0x5b, 0xdc, 0xc1, 0x46, 0xbf, 0x60, 0x75, 0x4e, 0x6a, 0x04, 0x24, 0x26,
       0x08, 0x95, 0x75, 0xc7, 0x5a, 0x00, 0x3f, 0x08, 0x9d, 0x27, 0x39, 0x83,
       0x9d, 0xec, 0x58, 0xb9, 0x64, 0xec, 0x38, 0x43] := by decide

/-- RFC 5869 test case 1: the PRK of HKDF-SHA256 extraction. -/
theorem hkdfExtract_rfc5869_tc1 :
    hkdfExtract
      [0x00, 0x01, 0x02, 0x03, 0x04, 0x05, 0x06, 0x07, 0x08, 0x09, 0x0a, 0x0b, 0x0c]
      (List.replicate 22 0x0b) =
      [0x07, 0x77, 0x09, 0x36, 0x2c, 0x2e, 0x32, 0xdf, 0x0d, 0xdc, 0x3f, 0x0d,
       0xc4, 0x7b, 0xba, 0x63, 0x90, 0xb6, 0xc7, 0x3b, 0xb5, 0x0f, 0x9c, 0x31,
       0x22, 0xec, 0x84, 0x4a, 0xd7, 0xc2, 0xb3, 0xe5] := by decide

/-! ## Session ratchet (`rust_core/src/crypto/session.rs`) -/

/-- ASCII bytes of the label `"root_key"`. -/
def rootKeyLabel : Bytes := [114, 111, 111, 116, 95, 107, 101, 121]

/-- ASCII bytes of the label `"send_chain"`. -/
def sendChainLabel : Bytes := [115, 101, 110, 100, 95, 99, 104, 97, 105, 110]

/-- ASCII bytes of the label `"recv_chain"`. -/
def recvChainLabel : Bytes := [114, 101, 99, 118, 95, 99, 104, 97, 105, 110]

/-- ASCII bytes of the label `"message_key"`. -/
def messageKeyLabel : Bytes := [109, 101, 115, 115, 97, 103, 101, 95, 107, 101, 121]

/-- ASCII bytes of the label `"chain_key"`. -/
def chainKeyLabel : Bytes := [99, 104, 97, 105, 110, 95, 107, 101, 121]

/-- A session with a contact (struct `Session` of `session.rs`). -/
structure Session where
  recipient_id : String
  root_key : Bytes
  send_chain_key : Bytes
  recv_chain_key : Bytes
  send_counter : Nat
  recv_counter : Nat
deriving DecidableEq

/-- Method `Session::new`: derive root key and both initial chain keys from the
shared secret by HKDF-SHA256 with no salt (`Hkdf::new(None, shared_secret)`)
and the three labels; both counters start at zero. -/
def Session.new (recipient_id : String) (shared_secret : Bytes) : Session :=
  let prk := hkdfExtract [] shared_secret
  { recipient_id := recipient_id
    root_key := hkdfExpand32 prk rootKeyLabel
    send_chain_key := hkdfExpand32 prk sendChainLabel
    recv_chain_key := hkdfExpand32 prk recvChainLabel
    send_counter := 0
    recv_counter := 0 }

/-- Method `Session::derive_message_key`: HKDF with the big-endian counter as salt
and the chain key as input key material, expanded under `"message_key"` and
`"chain_key"` into the message key and the next chain key.  The `self`
receiver is unused by the Rust body, mirrored here by the unused argument. -/
def Session.derive_message_key (_self : Session) (chain_key : Bytes) (counter : Nat) :
    Bytes × Bytes :=
  let prk := hkdfExtract (u32beBytes counter) chain_key
  (hkdfExpand32 prk messageKeyLabel, hkdfExpand32 prk chainKeyLabel)

/-- Method `Session::derive_send_key`: derive the next sending message key, replace
the send chain key and increment the send counter (`u32` addition). -/
def Session.derive_send_key (s : Session) : Bytes × Session :=
  let mk := s.derive_message_key s.send_chain_key s.send_counter
  (mk.1, { s with send_chain_key := mk.2, send_counter := (s.send_counter + 1) % 4294967296 })

/-- Method `Session::derive_recv_key`: derive the next receiving message key, replace
the receive chain key and increment the receive counter (`u32` addition). -/
def Session.derive_recv_key (s : Session) : Bytes × Session :=
  let mk := s.derive_message_key s.recv_chain_key s.recv_counter
  (mk.1, { s with recv_chain_key := mk.2, recv_counter := (s.recv_counter + 1) % 4294967296 })

/-! ## AES-256 (FIPS 197), forward direction only: GCM uses counter mode,
so both encryption and decryption apply the block cipher forwards. -/

/-- Multiplication by `x` in GF(2^8) modulo `x^8 + x^4 + x^3 + x + 1`. -/
def xtime (a : Nat) : Nat := ((a <<< 1) ^^^ (if 128 ≤ a then 27 else 0)) % 256

/-- The 256 bytes of the AES S-box (FIPS 197 Figure 7), packed into one
natural number with entry `i` in bits `8 i` to `8 i + 7`. -/
def sboxTable : Nat :=
  0x16bb54b00f2d99416842e6bf0d89a18cdf2855cee9871e9b948ed9691198f8e19e1dc186b95735610ef6034866b53e708a8bbd4b1f74dde8c6b4a61c2e2578ba08ae7a65eaf4566ca94ed58d6d37c8e779e4959162acd3c25c2406490a3a32e0db0b5ede14b8ee4688902a22dc4f816073195d643d7ea7c41744975fec130ccdd2f3ff1021dab6bcf5389d928f40a351a89f3c507f02f94585334d43fbaaefd0cf584c4a39becb6a5bb1fc20ed00d153842fe329b3d63b52a05a6e1b1a2c830975b227ebe28012079a059618c323c7041531d871f1e5a534ccf73f362693fdb7c072a49cafa2d4adf04759fa7dc982ca76abd7fe2b670130c56f6bf27b777c63

/-- The AES S-box. -/
def sbox (x : Nat) : Nat := (sboxTable >>> (8 * x)) % 256

/-- FIPS 197 sample values of the S-box. -/
theorem sbox_samples : sbox 0 = 0x63 ∧ sbox 0x53 = 0xed := by decide

/-- Apply the S-box to each byte of a 32-bit word. -/
def subWord (x : Nat) : Nat :=
  ((sbox (x / 16777216 % 256) * 256 + sbox (x / 65536 % 256)) * 256
      + sbox (x / 256 % 256)) * 256 + sbox (x % 256)

/-- Rotate a 32-bit word left by one byte. -/
def rotWord (x : Nat) : Nat := w32 ((x <<< 8) ||| (x >>> 24))

/-- One step of the AES-256 key schedule; the argument holds the words
produced so far, most recent first. -/
def aesKeyStep (wrev : List Nat) : Nat :=
  let i := wrev.length
  let prev := wrev.getD 0 0
  let t :=
    if i % 8 == 0 then subWord (rotWord prev) ^^^ ((2 ^ (i / 8 - 1) % 256) <<< 24)
    else if i % 8 == 4 then subWord prev
    else prev
  wrev.getD 7 0 ^^^ t

/-- AES-256 key expansion: 60 32-bit round-key words. -/
def aesExpandKey (key : Bytes) : List Nat :=
  ((List.range 52).foldl (fun wrev _ => aesKeyStep wrev :: wrev)
    (bytesToWordsBE key).reverse).reverse

/-- The 16 bytes of round key `r` (state-ordered, column major). -/
def roundKey (w : List Nat) (r : Nat) : Bytes :=
  ((w.drop (4 * r)).take 4).flatMap u32beBytes

/-- ShiftRows on a state stored in input order (`state[4c + r]` is row `r`,
column `c`). -/
def shiftRows (st : Bytes) : Bytes :=
  (List.range 16).map (fun i => st.getD (4 * ((i / 4 + i % 4) % 4) + i % 4) 0)

/-- MixColumns on one 4-byte column. -/
def mixColumn (a0 a1 a2 a3 : Nat) : Bytes :=
  [xtime a0 ^^^ (a1 ^^^ xtime a1) ^^^ a2 ^^^ a3,
   a0 ^^^ xtime a1 ^^^ (a2 ^^^ xtime a2) ^^^ a3,
   a0 ^^^ a1 ^^^ xtime a2 ^^^ (a3 ^^^ xtime a3),
   (a0 ^^^ xtime a0) ^^^ a1 ^^^ a2 ^^^ xtime a3]

/-- MixColumns on the full state. -/
def mixColumns (st : Bytes) : Bytes :=
  (List.range 4).flatMap (fun c =>
    mixColumn (st.getD (4 * c) 0) (st.getD (4 * c + 1) 0)
      (st.getD (4 * c + 2) 0) (st.getD (4 * c + 3) 0))

/-- AES-256 block encryption: 14 rounds over a 16-byte block. -/
def aes256EncryptBlock (key block : Bytes) : Bytes :=
  let w := aesExpandKey key
  let st0 := List.zipWith Nat.xor block (roundKey w 0)
  let stMid := (List.range 13).foldl
    (fun st r => List.zipWith Nat.xor (mixColumns (shiftRows (st.map sbox))) (roundKey w (r + 1)))
    st0
  List.zipWith Nat.xor (shiftRows (stMid.map sbox)) (roundKey w 14)

/-- FIPS 197 Appendix C.3 test vector for AES-256. -/
theorem aes256_fips197_vector :
    aes256EncryptBlock
      [0x00, 0x01, 0x02, 0x03, 0x04, 0x05, 0x06, 0x07, 0x08, 0x09, 0x0a, 0x0b,
       0x0c, 0x0d, 0x0e, 0x0f, 0x10, 0x11, 0x12, 0x13, 0x14, 0x15, 0x16, 0x17,
       0x18, 0x19, 0x1a, 0x1b, 0x1c, 0x1d, 0x1e, 0x1f]
      [0x00, 0x11, 0x22, 0x33, 0x44, 0x55, 0x66, 0x77, 0x88, 0x99, 0xaa, 0xbb,
       0xcc, 0xdd, 0xee, 0xff] =
      [0x8e, 0xa2, 0xb7, 0xca, 0x51, 0x67, 0x45, 0xbf, 0xea, 0xfc, 0x49, 0x90,
       0x4b, 0x49, 0x60, 0x89] := by decide

/-! ## AES-256-GCM (NIST SP 800-38D), the `aes_gcm` crate's cipher -/

/-- Big-endian value of a byte string. -/
def bytesToNatBE (l : Bytes) : Nat := l.foldl (fun acc b => acc * 256 + b) 0

/-- The 16 big-endian bytes of a 128-bit value. -/
def natToBytesBE16 (n : Nat) : Bytes :=
  (List.range 16).map (fun i => n / 256 ^ (15 - i) % 256)

/-- GF(2^128) multiplication in the GCM bit ordering (right-shift variant,
reduction polynomial `0xe1` followed by 120 zero bits). -/
def gf128Mul (x y : Nat) : Nat :=
  (((List.range 128).foldl
    (fun zv i =>
      (if x.testBit (127 - i) then zv.1 ^^^ zv.2 else zv.1,
       if zv.2 % 2 == 1 then (zv.2 >>> 1) ^^^ (0xe1 <<< 120) else zv.2 >>> 1))
    ((0 : Nat), y))).1

/-- Split a byte string whose length is a multiple of 16 into 16-byte blocks. -/
def chunk16 (l : Bytes) : List Bytes :=
  (List.range (l.length / 16)).map (fun i => (l.drop (16 * i)).take 16)

/-- GHASH over a list of 16-byte blocks. -/
def ghash (h : Nat) (blocks : List Bytes) : Nat :=
  blocks.foldl (fun y b => gf128Mul (y ^^^ bytesToNatBE b) h) 0

/-- Zero padding of a byte string to a multiple of 16 bytes. -/
def gcmPad16 (l : Bytes) : Bytes :=
  l ++ List.replicate ((16 - l.length % 16) % 16) 0

/-- The GCM counter-mode keystream for `n` bytes under a 12-byte nonce: block
`i` is the AES encryption of `nonce ‖ (2 + i)` (the first counter block after
`J0 = nonce ‖ 1`). -/
def gcmKeyStream (key nonce : Bytes) (n : Nat) : Bytes :=
  (((List.range ((n + 15) / 16)).flatMap
    (fun i => aes256EncryptBlock key (nonce ++ u32beBytes ((2 + i) % 4294967296)))).take n)

/-- The GCM authentication tag over a ciphertext with empty associated data:
`E(K, J0) ⊕ GHASH_H(pad(C) ‖ len(A) ‖ len(C))` with `H = E(K, 0¹⁶)`. -/
def aes256GcmTag (key nonce ct : Bytes) : Bytes :=
  let h := bytesToNatBE (aes256EncryptBlock key (List.replicate 16 0))
  let s := ghash h (chunk16 (gcmPad16 ct) ++ [u64beBytes 0 ++ u64beBytes (8 * ct.length)])
  List.zipWith Nat.xor (aes256EncryptBlock key (nonce ++ [0, 0, 0, 1])) (natToBytesBE16 s)

/-- AES-256-GCM encryption with empty associated data; returns
ciphertext ‖ tag, as the `aes_gcm` crate's `encrypt` does. -/
def aes256GcmEncrypt (key nonce pt : Bytes) : Bytes :=
  let ct := List.zipWith Nat.xor pt (gcmKeyStream key nonce pt.length)
  ct ++ aes256GcmTag key nonce ct

/-- AES-256-GCM decryption of ciphertext ‖ tag; `none` on a tag mismatch,
as the `aes_gcm` crate's `decrypt` error. -/
def aes256GcmDecrypt (key nonce data : Bytes) : Option Bytes :=
  if data.length < 16 then none
  else
    let ct := data.take (data.length - 16)
    let tag := data.drop (data.length - 16)
    if tag = aes256GcmTag key nonce ct then
      some (List.zipWith Nat.xor ct (gcmKeyStream key nonce ct.length))
    else none

/-- NIST GCM test vector (AES-256, zero key, zero nonce, empty plaintext). -/
theorem aes256Gcm_nist_empty_vector :
    aes256GcmEncrypt (List.replicate 32 0) (List.replicate 12 0) [] =
      [0x53, 0x0f, 0x8a, 0xfb, 0xc7, 0x45, 0x36, 0xb9, 0xa9, 0x63, 0xb4, 0xf1,
       0xc4, 0xcb, 0x73, 0x8b] := by decide

/-- NIST GCM test vector (AES-256, zero key, zero nonce, 16 zero bytes). -/
theorem aes256Gcm_nist_block_vector :
    aes256GcmEncrypt (List.replicate 32 0) (List.replicate 12 0) (List.replicate 16 0) =
      [0xce, 0xa7, 0x40, 0x3d, 0x4d, 0x60, 0x6b, 0x6e, 0x07, 0x4e, 0xc5, 0xd3,
       0xba, 0xf3, 0x9d, 0x18, 0xd0, 0xd1, 0xc8, 0xa7, 0x99, 0x99, 0x6b, 0xf0,
       0x26, 0x5b, 0x98, 0xb5, 0xd4, 0x8a, 0xb9, 0x19] := by decide

/-! ## X25519 (RFC 7748), the `x25519_dalek` crate's Diffie–Hellman -/

/-- The field prime `2^255 - 19`. -/
def p25519 : Nat := 2 ^ 255 - 19

/-- Modular exponentiation in the X25519 field, by left-to-right
square-and-multiply over the 256 low bits of the exponent. -/
def fpowm (b e : Nat) : Nat :=
  (List.range 256).foldl
    (fun acc i =>
      let acc2 := acc * acc % p25519
      if e.testBit (255 - i) then acc2 * b % p25519 else acc2) 1

/-- State of the Montgomery ladder: the two projective points and the last
conditional-swap bit. -/
structure MontState where
  x2 : Nat
  z2 : Nat
  x3 : Nat
  z3 : Nat
  swap : Nat

/-- One Montgomery-ladder step at bit `t` of the scalar `k` (RFC 7748 §5). -/
def ladderStep (k x1 : Nat) (st : MontState) (t : Nat) : MontState :=
  let kt := (k >>> t) % 2
  let sw := st.swap ^^^ kt
  let x2 := if sw == 1 then st.x3 else st.x2
  let x3 := if sw == 1 then st.x2 else st.x3
  let z2 := if sw == 1 then st.z3 else st.z2
  let z3 := if sw == 1 then st.z2 else st.z3
  let a := (x2 + z2) % p25519
  let aa := a * a % p25519
  let b := (x2 + p25519 - z2) % p25519
  let bb := b * b % p25519
  let e := (aa + p25519 - bb) % p25519
  let c := (x3 + z3) % p25519
  let d := (x3 + p25519 - z3) % p25519
  let da := d * a % p25519
  let cb := c * b % p25519
  { x2 := aa * bb % p25519
    z2 := e * ((aa + 121665 * e) % p25519) % p25519
    x3 := (da + cb) % p25519 * ((da + cb) % p25519) % p25519
    z3 := x1 * ((da + p25519 - cb) % p25519 * ((da + p25519 - cb) % p25519) % p25519) % p25519
    swap := kt }

/-- X25519 scalar multiplication on u-coordinates. -/
def x25519scalarmult (k u : Nat) : Nat :=
  let x1 := u % p25519
  let st := (List.range 255).foldl (fun st i => ladderStep k x1 st (254 - i))
    ⟨1, 0, x1, 1, 0⟩
  let x2 := if st.swap == 1 then st.x3 else st.x2
  let z2 := if st.swap == 1 then st.z3 else st.z2
  x2 * fpowm z2 (p25519 - 2) % p25519

/-- Little-endian value of a byte string. -/
def bytesToNatLE (l : Bytes) : Nat := l.foldr (fun b acc => b + 256 * acc) 0

/-- The 32 little-endian bytes of a 256-bit value. -/
def natToBytesLE32 (n : Nat) : Bytes := (List.range 32).map (fun i => n / 256 ^ i % 256)

/-- RFC 7748 scalar clamping: clear bits 0–2 and 255, set bit 254
(`x25519_dalek`'s `StaticSecret` clamping on `diffie_hellman`). -/
def clampScalar (k : Nat) : Nat := k % 2 ^ 255 / 8 * 8 ||| 2 ^ 254

/-- Method `StaticSecret::diffie_hellman`: X25519 of the clamped secret scalar and
the peer's u-coordinate (top bit masked), as 32 little-endian bytes. -/
def x25519DiffieHellman (secret public_key : Bytes) : Bytes :=
  natToBytesLE32
    (x25519scalarmult (clampScalar (bytesToNatLE secret)) (bytesToNatLE public_key % 2 ^ 255))

/-- RFC 7748 §5.2 test vector 1 for X25519. -/
theorem x25519_rfc7748_vector :
    x25519DiffieHellman
      [0xa5, 0x46, 0xe3, 0x6b, 0xf0, 0x52, 0x7c, 0x9d, 0x3b, 0x16, 0x15, 0x4b,
       0x82, 0x46, 0x5e, 0xdd, 0x62, 0x14, 0x4c, 0x0a, 0xc1, 0xfc, 0x5a, 0x18,
       0x50, 0x6a, 0x22, 0x44, 0xba, 0x44, 0x9a, 0xc4]
      [0xe6, 0xdb, 0x68, 0x67, 0x58, 0x30, 0x30, 0xdb, 0x35, 0x94, 0xc1, 0xa4,
       0x24, 0xb1, 0x5f, 0x7c, 0x72, 0x66, 0x24, 0xec, 0x26, 0xb3, 0x35, 0x3b,
       0x10, 0xa9, 0x03, 0xa6, 0xd0, 0xab, 0x1c, 0x4c] =
      [0xc3, 0xda, 0x55, 0x37, 0x9d, 0xe9, 0xc6, 0x90, 0x8e, 0x94, 0xea, 0x4d,
       0xf2, 0x8d, 0x08, 0x4f, 0x32, 0xec, 0xcf, 0x03, 0x49, 0x1c, 0x71, 0xf7,
       0x54, 0xb4, 0x07, 0x55, 0x77, 0xa2, 0x85, 0x52] := by decide

/-! ## Global crypto state (`crypto/mod.rs`) and key management
(`crypto/key_management.rs`) -/

/-- Rust struct `IdentityKeys`: the device's long-term key material. -/
structure IdentityKeys where
  identity_keypair : Bytes
  signed_prekey_private : Bytes
  signed_prekey_public : Bytes
  signed_prekey_signature : Bytes
deriving DecidableEq

/-- Rust struct `PublicKeyBundle`: the peer material passed to `init_session`. -/
structure PublicKeyBundle where
  identity_public_key : Bytes
  signed_prekey : Bytes
  signature : Bytes
  one_time_prekey : Option Bytes
deriving DecidableEq

/-- The process-wide mutable state of `crypto/mod.rs`: the `IDENTITY_KEYS`
slot and the `SESSIONS` table, threaded explicitly through each operation. -/
structure CryptoState where
  identity_keys : Option IdentityKeys
  sessions : List (String × Session)
deriving DecidableEq

/-- Lookup in the session table (`HashMap::get`). -/
def sessionsGet (m : List (String × Session)) (k : String) : Option Session :=
  (m.find? (fun p => p.1 == k)).map Prod.snd

/-- Insert-or-replace in the session table (`HashMap::insert`). -/
def sessionsInsert (m : List (String × Session)) (k : String) (v : Session) :
    List (String × Session) :=
  (k, v) :: m.filter (fun p => p.1 != k)

/-- Function `init_session` of `session.rs`: require a local identity, parse
the peer's signed prekey as exactly 32 bytes, run X25519 between the local
signed-prekey private key and the peer's prekey, build a fresh `Session` from
the shared secret and install it in the table.  The Rust function returns
`Result<(), String>` and mutates the globals; here the state is explicit. -/
def init_session (st : CryptoState) (recipient_id : String)
    (recipient_keys : PublicKeyBundle) : Except String Unit × CryptoState :=
  match st.identity_keys with
  | none => (.error "Our keys not initialized", st)
  | some our_keys =>
    if recipient_keys.signed_prekey.length = 32 then
      let shared_secret :=
        x25519DiffieHellman our_keys.signed_prekey_private recipient_keys.signed_prekey
      let session := Session.new recipient_id shared_secret
      (.ok (), { st with sessions := sessionsInsert st.sessions recipient_id session })
    else (.error "Invalid prekey length", st)

/-- Function `has_session` of `session.rs`. -/
def has_session (st : CryptoState) (recipient_id : String) : Bool :=
  (sessionsGet st.sessions recipient_id).isSome

/-- Function `get_session_mut` of `session.rs`: a CLONE of the stored
session, or an error when none exists. -/
def get_session_mut (st : CryptoState) (recipient_id : String) : Except String Session :=
  match sessionsGet st.sessions recipient_id with
  | some s => .ok s
  | none => .error ("No session for " ++ recipient_id)

/-- Function `update_session` of `session.rs`: write a session back into the
table under its own `recipient_id`. -/
def update_session (st : CryptoState) (session : Session) : CryptoState :=
  { st with sessions := sessionsInsert st.sessions session.recipient_id session }

/-! ## UTF-8 validity (Rust `String::from_utf8`) -/

/-- Test for a UTF-8 continuation byte `0x80..0xBF`. -/
def utf8Cont (b : Nat) : Bool := decide (128 ≤ b) && decide (b < 192)

/-- Validity of a byte string as UTF-8, as checked by Rust's
`String::from_utf8`: well-formed sequences only, no overlong encodings, no
surrogates, no code points above `0x10FFFF`. -/
def validUtf8 : Bytes → Bool
  | [] => true
  | b0 :: rest =>
    if b0 < 128 then validUtf8 rest
    else if b0 < 194 then false
    else if b0 < 224 then
      match rest with
      | b1 :: rest2 => utf8Cont b1 && validUtf8 rest2
      | [] => false
    else if b0 < 240 then
      match rest with
      | b1 :: b2 :: rest2 =>
        (if b0 == 224 then decide (160 ≤ b1) && decide (b1 < 192)
         else if b0 == 237 then decide (128 ≤ b1) && decide (b1 < 160)
         else utf8Cont b1) && utf8Cont b2 && validUtf8 rest2
      | _ => false
    else if b0 < 245 then
      match rest with
      | b1 :: b2 :: b3 :: rest2 =>
        (if b0 == 240 then decide (144 ≤ b1) && decide (b1 < 192)
         else if b0 == 244 then decide (128 ≤ b1) && decide (b1 < 144)
         else utf8Cont b1) && utf8Cont b2 && utf8Cont b3 && validUtf8 rest2
      | _ => false
    else false

/-! ## Message transform (`crypto/encryption.rs`) -/

/-- Function `encrypt_message` of `encryption.rs`.  The plaintext is the
UTF-8 byte string of the Rust `&str` argument; the 12 random nonce bytes the
Rust code draws from `OsRng` are an explicit argument.  Flow: clone the
session, derive the next send key, AES-256-GCM-encrypt, write the advanced
session back, return nonce ‖ ciphertext ‖ tag. -/
def encrypt_message (st : CryptoState) (nonce : Bytes) (recipient_id : String)
    (plaintext : Bytes) : Except String Bytes × CryptoState :=
  match get_session_mut st recipient_id with
  | .error e => (.error e, st)
  | .ok session =>
    let r := session.derive_send_key
    let ciphertext := aes256GcmEncrypt r.1 nonce plaintext
    let st1 := update_session st r.2
    (.ok (nonce ++ ciphertext), st1)

/-- Function `decrypt_message` of `encryption.rs`.  Flow: reject inputs
shorter than `12 + 16` bytes, clone the session, derive the next receive
key, AES-256-GCM-decrypt with the first 12 bytes as nonce, write the
advanced session back only after successful decryption, then validate the
plaintext as UTF-8.  The Rust error strings carry `{:?}` payloads after the
prefixes modelled here. -/
def decrypt_message (st : CryptoState) (sender_id : String) (ciphertext : Bytes) :
    Except String Bytes × CryptoState :=
  if ciphertext.length < 12 + 16 then (.error "Ciphertext too short", st)
  else
    match get_session_mut st sender_id with
    | .error e => (.error e, st)
    | .ok session =>
      let r := session.derive_recv_key
      match aes256GcmDecrypt r.1 (ciphertext.take 12) (ciphertext.drop 12) with
      | none => (.error "Decryption failed", st)
      | some plaintext =>
        let st1 := update_session st r.2
        if validUtf8 plaintext then (.ok plaintext, st1)
        else (.error "Invalid UTF-8", st1)

/-! ## Interleaving model of concurrent `encrypt_message` calls

Under the `SESSIONS : RwLock<HashMap<..>>` global, one `encrypt_message`
call touches the shared table in exactly two critical sections:
`get_session_mut` (read lock, clone the session, release) and
`update_session` (write lock, insert, release).  Key derivation and AES run
between them on the thread-private clone, so they commute with the other
thread's steps and are folded into the write-back step.  A schedule lists
which thread takes its next atomic step. -/

/-- Thread-local view of one in-flight `encrypt_message` call. -/
structure EncThread where
  recipient : String
  nonce : Bytes
  plaintext : Bytes
  localSession : Option Session
  usedCounter : Option Nat
  result : Option (Except String Bytes)

/-- A thread about to start `encrypt_message`. -/
def encThreadStart (recipient : String) (nonce plaintext : Bytes) : EncThread :=
  ⟨recipient, nonce, plaintext, none, none, none⟩

/-- One atomic step of a thread running `encrypt_message`: first the
read–clone critical section, then the derive+encrypt+write-back; further
steps are no-ops once the call finished.  `usedCounter` records the
`send_counter` value the derivation consumed. -/
def encStep (st : CryptoState) (t : EncThread) : CryptoState × EncThread :=
  match t.localSession, t.result with
  | none, none =>
    match get_session_mut st t.recipient with
    | .error e => (st, { t with result := some (.error e) })
    | .ok s => (st, { t with localSession := some s })
  | some s, none =>
    let r := s.derive_send_key
    let ct := aes256GcmEncrypt r.1 t.nonce t.plaintext
    (update_session st r.2,
     { t with usedCounter := some s.send_counter, result := some (.ok (t.nonce ++ ct)) })
  | _, some _ => (st, t)

/-- Run a two-thread schedule; `true` steps the first thread. -/
def runSchedule (sched : List Bool) (st : CryptoState) (t1 t2 : EncThread) :
    CryptoState × EncThread × EncThread :=
  match sched with
  | [] => (st, t1, t2)
  | b :: rest =>
    if b then
      let r := encStep st t1
      runSchedule rest r.1 r.2 t2
    else
      let r := encStep st t2
      runSchedule rest r.1 t1 r.2

/-! ## Length facts about the primitives -/

theorem flatMap_const_length {α : Type} (f : α → Bytes) (k : Nat)
    (l : List α) (h : ∀ x ∈ l, (f x).length = k) :
    (l.flatMap f).length = k * l.length := by
  induction l with
  | nil => simp
  | cons x xs ih =>
      simp only [List.flatMap_cons, List.length_append, List.length_cons,
        h x (List.mem_cons_self x xs), ih (fun y hy => h y (List.mem_cons_of_mem x hy))]
      ring

theorem sha256_foldl_length (blocks : List Bytes) (hs : List Nat) (h : hs.length = 8) :
    (blocks.foldl sha256Compress hs).length = 8 := by
  induction blocks generalizing hs with
  | nil => exact h
  | cons b bs ih => exact ih _ rfl

theorem sha256_length (msg : Bytes) : (sha256 msg).length = 32 := by
  unfold sha256
  rw [flatMap_const_length u32beBytes 4 _ (fun x _ => rfl),
    sha256_foldl_length _ sha256H0 rfl]

theorem hmacSha256_length (key msg : Bytes) : (hmacSha256 key msg).length = 32 :=
  sha256_length _

theorem hkdfExtract_length (salt ikm : Bytes) : (hkdfExtract salt ikm).length = 32 :=
  hmacSha256_length _ _

theorem hkdfExpand32_length (prk info : Bytes) : (hkdfExpand32 prk info).length = 32 :=
  hmacSha256_length _ _

theorem derive_message_key_length (s : Session) (ck : Bytes) (c : Nat) :
    (s.derive_message_key ck c).1.length = 32 ∧ (s.derive_message_key ck c).2.length = 32 :=
  ⟨hkdfExpand32_length _ _, hkdfExpand32_length _ _⟩

theorem foldl_cons_length {α β : Type} (g : List β → β) (l : List α) (init : List β) :
    (l.foldl (fun acc _ => g acc :: acc) init).length = l.length + init.length := by
  induction l generalizing init with
  | nil => simp
  | cons x xs ih => rw [List.foldl_cons, ih]; simp; omega

theorem bytesToWordsBE_length : ∀ l : Bytes, (bytesToWordsBE l).length = l.length / 4
  | [] => by simp [bytesToWordsBE]
  | [_] => by simp [bytesToWordsBE]
  | [_, _] => by simp [bytesToWordsBE]
  | [_, _, _] => by simp [bytesToWordsBE]
  | _ :: _ :: _ :: _ :: rest => by
      simp only [bytesToWordsBE, List.length_cons, bytesToWordsBE_length rest]
      omega

theorem aesExpandKey_length (key : Bytes) (h : key.length = 32) :
    (aesExpandKey key).length = 60 := by
  unfold aesExpandKey
  rw [List.length_reverse, foldl_cons_length aesKeyStep]
  simp [bytesToWordsBE_length, h]

theorem roundKey_length (w : List Nat) (r : Nat) (h : w.length = 60) (hr : r ≤ 14) :
    (roundKey w r).length = 16 := by
  unfold roundKey
  rw [flatMap_const_length u32beBytes 4 _ (fun x _ => rfl), List.length_take,
    List.length_drop, h]
  omega

theorem shiftRows_length (st : Bytes) : (shiftRows st).length = 16 := by
  simp [shiftRows]

theorem aes256EncryptBlock_length (key block : Bytes) (h : key.length = 32) :
    (aes256EncryptBlock key block).length = 16 := by
  unfold aes256EncryptBlock
  rw [List.length_zipWith, shiftRows_length,
    roundKey_length _ _ (aesExpandKey_length key h) (by omega), Nat.min_self]

theorem gcmKeyStream_length (key nonce : Bytes) (n : Nat) (h : key.length = 32) :
    (gcmKeyStream key nonce n).length = n := by
  unfold gcmKeyStream
  rw [List.length_take,
    flatMap_const_length _ 16 _ (fun x _ => aes256EncryptBlock_length key _ h)]
  simp only [List.length_range]
  omega

theorem natToBytesBE16_length (n : Nat) : (natToBytesBE16 n).length = 16 := by
  simp [natToBytesBE16]

theorem aes256GcmTag_length (key nonce ct : Bytes) (h : key.length = 32) :
    (aes256GcmTag key nonce ct).length = 16 := by
  unfold aes256GcmTag
  rw [List.length_zipWith, aes256EncryptBlock_length key _ h, natToBytesBE16_length,
    Nat.min_self]

theorem aes256GcmEncrypt_length (key nonce pt : Bytes) (h : key.length = 32) :
    (aes256GcmEncrypt key nonce pt).length = pt.length + 16 := by
  unfold aes256GcmEncrypt
  rw [List.length_append, aes256GcmTag_length key nonce _ h, List.length_zipWith,
    gcmKeyStream_length key nonce _ h]
  omega

theorem zipWith_xor_cancel : ∀ (l ks : Bytes), ks.length = l.length →
    List.zipWith Nat.xor (List.zipWith Nat.xor l ks) ks = l
  | [], [], _ => rfl
  | [], _ :: _, h => by simp at h
  | _ :: _, [], h => by simp at h
  | a :: l, k :: ks, h => by
      have hx : (a ^^^ k) ^^^ k = a := by rw [Nat.xor_assoc, Nat.xor_self, Nat.xor_zero]
      simp only [List.zipWith_cons_cons, zipWith_xor_cancel l ks (by simpa using h)]
      exact congrArg (fun z => z :: l) hx

/-- AES-256-GCM decryption of an AES-256-GCM encryption under the same key
and nonce recovers the plaintext: GCM runs the block cipher only forwards,
so this needs no inverse cipher, only keystream cancellation and agreement
of the recomputed tag. -/
theorem aes256Gcm_roundtrip (key nonce pt : Bytes) (h : key.length = 32) :
    aes256GcmDecrypt key nonce (aes256GcmEncrypt key nonce pt) = some pt := by
  have hks := gcmKeyStream_length key nonce pt.length h
  have hct : (List.zipWith Nat.xor pt (gcmKeyStream key nonce pt.length)).length = pt.length := by
    rw [List.length_zipWith, hks, Nat.min_self]
  have htag := aes256GcmTag_length key nonce
    (List.zipWith Nat.xor pt (gcmKeyStream key nonce pt.length)) h
  unfold aes256GcmEncrypt aes256GcmDecrypt
  simp only [List.length_append, hct, htag]
  rw [if_neg (by omega)]
  have harith : pt.length + 16 - 16 = pt.length := by omega
  rw [harith, List.take_left' hct, List.drop_left' hct, if_pos rfl, hct,
    zipWith_xor_cancel pt _ hks]

/-! ## Claim theorems -/

/-- C1: for two parties that establish sessions from the same 32-byte shared
secret via `Session::new`, the spec requires Party A's send-chain sequence to
produce exactly Party B's receive-chain sequence.  The code violates this:
both parties derive their chains from the same labels, so A's first send key
EQUALS B's first send key (first conjunct) and DIFFERS from B's first receive
key (second conjunct) — the ratchets are not cross-wired by role. -/
theorem sendChain_recvChain_not_crosswired :
    ((Session.new "bob" (List.replicate 32 0)).derive_send_key).1 =
      ((Session.new "alice" (List.replicate 32 0)).derive_send_key).1 ∧
    ((Session.new "bob" (List.replicate 32 0)).derive_send_key).1 ≠
      ((Session.new "alice" (List.replicate 32 0)).derive_recv_key).1 :=
  ⟨rfl, by decide⟩

/-- C4: on a fresh session the send counter is 0, one `derive_send_key` call
sets it to 1, a second sets it to 2, and each derived message key is 32 bytes
long (all for every recipient id and shared secret); moreover, at the
repository's own unit-test input (the all-zero shared secret) the two
successive keys are different. -/
theorem derive_send_key_fresh_pair :
    (∀ (sid : String) (secret : Bytes),
       (Session.new sid secret).send_counter = 0 ∧
       ((Session.new sid secret).derive_send_key).2.send_counter = 1 ∧
       (((Session.new sid secret).derive_send_key).2.derive_send_key).2.send_counter = 2 ∧
       ((Session.new sid secret).derive_send_key).1.length = 32 ∧
       (((Session.new sid secret).derive_send_key).2.derive_send_key).1.length = 32) ∧
    ((Session.new "test" (List.replicate 32 0)).derive_send_key).1 ≠
      (((Session.new "test" (List.replicate 32 0)).derive_send_key).2.derive_send_key).1 :=
  ⟨fun _ _ => ⟨rfl, rfl, rfl, hkdfExpand32_length _ _, hkdfExpand32_length _ _⟩, by decide⟩

/-- C6: `decrypt_message` on any input shorter than 28 bytes fails with the
`InvalidCiphertextLength` error (`"Ciphertext too short"`) and leaves the
state untouched, for every session state and sender identifier. -/
theorem decrypt_short_ciphertext_rejected (st : CryptoState) (sender_id : String)
    (ciphertext : Bytes) (h : ciphertext.length < 28) :
    decrypt_message st sender_id ciphertext = (.error "Ciphertext too short", st) := by
  unfold decrypt_message
  rw [if_pos (by omega)]

/-- Witness for C6 at the empty ciphertext. -/
theorem decrypt_short_ciphertext_rejected_witness :
    decrypt_message ⟨none, []⟩ "mallory" [] =
      (.error "Ciphertext too short", (⟨none, []⟩ : CryptoState)) :=
  decrypt_short_ciphertext_rejected ⟨none, []⟩ "mallory" [] (by decide)

/-- C7: message-key derivation is a pure function of the chain key and the
counter: `derive_message_key` never reads its receiver, and whenever two
sessions agree on the send (resp. receive) chain key and counter,
`derive_send_key` (resp. `derive_recv_key`) returns the same message key and
the same next chain key.  No randomness enters derivation. -/
theorem derive_message_key_pure :
    (∀ (s₁ s₂ : Session) (ck : Bytes) (c : Nat),
       s₁.derive_message_key ck c = s₂.derive_message_key ck c) ∧
    (∀ s₁ s₂ : Session, s₁.send_chain_key = s₂.send_chain_key →
       s₁.send_counter = s₂.send_counter →
       (s₁.derive_send_key).1 = (s₂.derive_send_key).1 ∧
       (s₁.derive_send_key).2.send_chain_key = (s₂.derive_send_key).2.send_chain_key) ∧
    (∀ s₁ s₂ : Session, s₁.recv_chain_key = s₂.recv_chain_key →
       s₁.recv_counter = s₂.recv_counter →
       (s₁.derive_recv_key).1 = (s₂.derive_recv_key).1 ∧
       (s₁.derive_recv_key).2.recv_chain_key = (s₂.derive_recv_key).2.recv_chain_key) := by
  refine ⟨fun _ _ _ _ => rfl, fun s₁ s₂ h1 h2 => ?_, fun s₁ s₂ h1 h2 => ?_⟩ <;>
    constructor <;>
    simp [Session.derive_send_key, Session.derive_recv_key, Session.derive_message_key, h1, h2]

/-- Witness for C7: two sessions that differ in recipient, root key, the
opposite chain and counters still derive the same send message key. -/
theorem derive_message_key_pure_witness :
    ((⟨"a", [7], [1, 2], [3], 5, 9⟩ : Session).derive_send_key).1 =
      ((⟨"b", [8], [1, 2], [4], 5, 11⟩ : Session).derive_send_key).1 :=
  (derive_message_key_pure.2.1 ⟨"a", [7], [1, 2], [3], 5, 9⟩ ⟨"b", [8], [1, 2], [4], 5, 11⟩
    rfl rfl).1

/-- C8: `derive_send_key` changes only the send chain key and send counter:
the receive chain key, receive counter, root key and recipient id are
untouched; symmetrically `derive_recv_key` changes only the receive side. -/
theorem derive_keys_frame (s : Session) :
    ((s.derive_send_key).2.recv_chain_key = s.recv_chain_key ∧
     (s.derive_send_key).2.recv_counter = s.recv_counter ∧
     (s.derive_send_key).2.root_key = s.root_key ∧
     (s.derive_send_key).2.recipient_id = s.recipient_id) ∧
    ((s.derive_recv_key).2.send_chain_key = s.send_chain_key ∧
     (s.derive_recv_key).2.send_counter = s.send_counter ∧
     (s.derive_recv_key).2.root_key = s.root_key ∧
     (s.derive_recv_key).2.recipient_id = s.recipient_id) :=
  ⟨⟨rfl, rfl, rfl, rfl⟩, rfl, rfl, rfl, rfl⟩

/-- C3: `init_session` fails exactly when no local identity is stored
(`NotInitialized`, string `"Our keys not initialized"`) or the peer's signed
prekey is not exactly 32 bytes (`InvalidKeyMaterial`, string
`"Invalid prekey length"`); and every failure leaves the session table — in
fact the whole state — unchanged. -/
theorem init_session_error_conditions (st : CryptoState) (rid : String)
    (keys : PublicKeyBundle) :
    ((init_session st rid keys).1.isOk = false ↔
      st.identity_keys = none ∨ keys.signed_prekey.length ≠ 32) ∧
    ((init_session st rid keys).1.isOk = false → (init_session st rid keys).2 = st) := by
  cases hid : st.identity_keys with
  | none => simp [init_session, hid, Except.isOk, Except.toBool]
  | some ourKeys =>
      by_cases hlen : keys.signed_prekey.length = 32 <;>
        simp [init_session, hid, hlen, Except.isOk, Except.toBool]

/-- Witness for C3: with no identity generated, `init_session` leaves an
existing session table unchanged. -/
theorem init_session_error_conditions_witness :
    (init_session ⟨none, []⟩ "alice" ⟨[], List.replicate 32 0, [], none⟩).2 =
      (⟨none, []⟩ : CryptoState) :=
  (init_session_error_conditions ⟨none, []⟩ "alice" ⟨[], List.replicate 32 0, [], none⟩).2
    (by decide)

/-- Demo session, state, nonce and plaintext used by the witnesses below. -/
def demoSession : Session :=
  ⟨"alice", List.replicate 32 1, List.replicate 32 2, List.replicate 32 3, 0, 0⟩

/-- Demo state holding `demoSession` under key `"alice"`. -/
def demoState : CryptoState := ⟨none, [("alice", demoSession)]⟩

/-- Demo 12-byte nonce. -/
def demoNonce : Bytes := List.replicate 12 0

/-- UTF-8 bytes of `"Hello, World!"` (13 bytes). -/
def helloWorldBytes : Bytes := [72, 101, 108, 108, 111, 44, 32, 87, 111, 114, 108, 100, 33]

/-- C5: whenever a session exists for the recipient (and the drawn nonce has
its 12 bytes), `encrypt_message` succeeds and returns exactly
nonce ‖ AEAD-output ‖ tag of total length `N + 28` for an `N`-byte
plaintext. -/
theorem encrypt_message_length (st : CryptoState) (nonce : Bytes) (rid : String)
    (pt : Bytes) (s : Session) (hs : sessionsGet st.sessions rid = some s)
    (hn : nonce.length = 12) :
    ∃ out st1, encrypt_message st nonce rid pt = (.ok out, st1) ∧
      out.length = pt.length + 28 ∧ out.take 12 = nonce ∧
      out.drop 12 = aes256GcmEncrypt (s.derive_send_key).1 nonce pt := by
  have hkey : (s.derive_send_key).1.length = 32 := hkdfExpand32_length _ _
  refine ⟨nonce ++ aes256GcmEncrypt (s.derive_send_key).1 nonce pt,
    update_session st (s.derive_send_key).2, ?_, ?_, List.take_left' hn, List.drop_left' hn⟩
  · simp only [encrypt_message, get_session_mut, hs]
  · rw [List.length_append, hn, aes256GcmEncrypt_length _ _ _ hkey]
    omega

/-- Witness for C5: sealing the 13-byte `"Hello, World!"` yields 41 bytes. -/
theorem encrypt_message_length_witness :
    ∃ out st1, encrypt_message demoState demoNonce "alice" helloWorldBytes = (.ok out, st1) ∧
      out.length = 41 := by
  obtain ⟨out, st1, h1, h2, -, -⟩ :=
    encrypt_message_length demoState demoNonce "alice" helloWorldBytes demoSession
      (by decide) (by decide)
  exact ⟨out, st1, h1, by simpa [helloWorldBytes] using h2⟩

/-- C2: seal-then-open with matching chain state recovers the plaintext
exactly, for EVERY plaintext (in particular lengths 0, 1, 1024 and 100000):
if the opener's stored session has its receive chain key and counter equal to
the sealer's send chain key and counter, then `decrypt_message` applied to
the `encrypt_message` output returns the original (valid-UTF-8) plaintext. -/
theorem seal_open_roundtrip (stA stB : CryptoState) (nonce : Bytes) (rid sid : String)
    (pt : Bytes) (sA sB : Session)
    (hA : sessionsGet stA.sessions rid = some sA)
    (hB : sessionsGet stB.sessions sid = some sB)
    (hck : sB.recv_chain_key = sA.send_chain_key)
    (hc : sB.recv_counter = sA.send_counter)
    (hn : nonce.length = 12)
    (hpt : validUtf8 pt = true) :
    ∃ out stA1, encrypt_message stA nonce rid pt = (.ok out, stA1) ∧
      (decrypt_message stB sid out).1 = .ok pt := by
  have hkey : (sA.derive_send_key).1.length = 32 := hkdfExpand32_length _ _
  refine ⟨nonce ++ aes256GcmEncrypt (sA.derive_send_key).1 nonce pt,
    update_session stA (sA.derive_send_key).2, ?_, ?_⟩
  · simp only [encrypt_message, get_session_mut, hA]
  · have hlen : (nonce ++ aes256GcmEncrypt (sA.derive_send_key).1 nonce pt).length =
        pt.length + 28 := by
      rw [List.length_append, hn, aes256GcmEncrypt_length _ _ _ hkey]
      omega
    have hkeyB : (sB.derive_recv_key).1 = (sA.derive_send_key).1 := by
      show (sB.derive_message_key sB.recv_chain_key sB.recv_counter).1 = _
      rw [hck, hc]
      rfl
    unfold decrypt_message
    rw [hlen, if_neg (by omega)]
    simp only [get_session_mut, hB, hkeyB, List.take_left' hn, List.drop_left' hn,
      aes256Gcm_roundtrip _ _ _ hkey, hpt, if_true]

/-- Witness for C2 at a 2-byte plaintext with hand-matched chain state. -/
theorem seal_open_roundtrip_witness :
    ∃ out stA1,
      encrypt_message demoState demoNonce "alice" [72, 105] = (.ok out, stA1) ∧
      (decrypt_message
        (⟨none, [("bob", ⟨"bob", [], List.replicate 32 9, List.replicate 32 2, 7, 0⟩)]⟩ :
          CryptoState) "bob" out).1 = .ok [72, 105] :=
  seal_open_roundtrip demoState
    ⟨none, [("bob", ⟨"bob", [], List.replicate 32 9, List.replicate 32 2, 7, 0⟩)]⟩
    demoNonce "alice" "bob" [72, 105] demoSession
    ⟨"bob", [], List.replicate 32 9, List.replicate 32 2, 7, 0⟩
    (by decide) (by decide) (by decide) (by decide) (by decide) (by decide)

/-- C9: `decrypt_message` persists the advanced session exactly when AEAD
decryption succeeds: on a tag failure the state is unchanged and
`"Decryption failed"` is returned; on success the advanced session is stored
even when the plaintext fails UTF-8 validation, in which case the caller
still receives an error (`"Invalid UTF-8"`) while the message key has been
consumed. -/
theorem decrypt_session_update_discipline (st : CryptoState) (sid : String) (ct : Bytes)
    (s : Session) (hs : sessionsGet st.sessions sid = some s) (hlen : 28 ≤ ct.length) :
    (aes256GcmDecrypt (s.derive_recv_key).1 (ct.take 12) (ct.drop 12) = none →
       decrypt_message st sid ct = (.error "Decryption failed", st)) ∧
    (∀ pt, aes256GcmDecrypt (s.derive_recv_key).1 (ct.take 12) (ct.drop 12) = some pt →
       (decrypt_message st sid ct).2 = update_session st (s.derive_recv_key).2 ∧
       (validUtf8 pt = true → (decrypt_message st sid ct).1 = .ok pt) ∧
       (validUtf8 pt = false → (decrypt_message st sid ct).1 = .error "Invalid UTF-8")) := by
  constructor
  · intro hnone
    unfold decrypt_message
    rw [if_neg (by omega)]
    simp only [get_session_mut, hs, hnone]
  · intro pt hsome
    unfold decrypt_message
    rw [if_neg (by omega)]
    simp only [get_session_mut, hs, hsome]
    refine ⟨?_, fun hv => ?_, fun hv => ?_⟩ <;> cases hv' : validUtf8 pt <;>
      simp_all

/-- Witness for C9 at a 28-zero-byte ciphertext against `demoSession` stored
for `"bob"`: its all-zero tag fails authentication, so the state is
unchanged and `"Decryption failed"` is returned. -/
theorem decrypt_session_update_discipline_witness :
    decrypt_message ⟨none, [("bob", demoSession)]⟩ "bob" (List.replicate 28 0) =
      (.error "Decryption failed", (⟨none, [("bob", demoSession)]⟩ : CryptoState)) :=
  (decrypt_session_update_discipline ⟨none, [("bob", demoSession)]⟩ "bob"
    (List.replicate 28 0) demoSession (by decide) (by decide)).1 (by decide)

/-- Session at counter 0 stored for `"peer"`, raced over by two threads. -/
def racePeerSession : Session :=
  ⟨"peer", [], List.replicate 32 0, List.replicate 32 0, 0, 0⟩

/-- Initial state of the race. -/
def raceState : CryptoState := ⟨none, [("peer", racePeerSession)]⟩

/-- The two identical competing `encrypt_message` calls. -/
def raceThread : EncThread := encThreadStart "peer" (List.replicate 12 0) []

/-- Outcome of the legal interleaving read₁, read₂, write₁, write₂. -/
def raceOutcome : CryptoState × EncThread × EncThread :=
  runSchedule [true, false, true, false] raceState raceThread raceThread

/-- C10: the read–clone–derive–write-back sequence of `encrypt_message` is
NOT atomic per session: under the interleaving in which both threads pass
their `get_session_mut` critical section before either writes back, both
concurrent `seal` calls on the same session derive their output from send
counter 0, and after both complete the stored counter is 1, not 2 — the
slower writer silently overwrites the faster one. -/
theorem concurrent_seal_counter_reuse :
    raceOutcome.2.1.usedCounter = some 0 ∧ raceOutcome.2.2.usedCounter = some 0 ∧
    (sessionsGet raceOutcome.1.sessions "peer").map Session.send_counter = some 1 := by
  refine ⟨rfl, rfl, by decide⟩

end MeraBriar
